import Mathlib

/-!
Verification development for `multicast_ping-rs` (`src/main.rs`), a simple
IPv6 multicast client/server. The definitions below are a shallow embedding
of the program: pure fragments become Lean functions, the stateful loops
become explicit traces over lists of environment events, machine integers
become `Nat` with explicit bounds where overflow matters, and fallible code
returns `Option`/`Except`.
-/

set_option maxRecDepth 4000

namespace MulticastPing

/-! ## Byte-level helpers

The Rust program turns its configured message `String` into bytes with
`as_bytes()`/`into_bytes()` (UTF-8). We model bytes as `Nat` values `< 256`.
-/

/-- UTF-8 encoding of a single Unicode scalar value, as byte values. -/
def charUtf8 (c : Char) : List Nat :=
  let n := c.toNat
  if n < 0x80 then [n]
  else if n < 0x800 then [0xC0 + n / 64, 0x80 + n % 64]
  else if n < 0x10000 then [0xE0 + n / 4096, 0x80 + n / 64 % 64, 0x80 + n % 64]
  else [0xF0 + n / 262144, 0x80 + n / 4096 % 64, 0x80 + n / 64 % 64, 0x80 + n % 64]

/-- UTF-8 bytes of a string, the model of Rust's `String::as_bytes`. -/
def utf8Bytes (s : String) : List Nat :=
  s.data.flatMap charUtf8

/-! ## Command-line arguments

Model of the `Args` struct (main.rs lines 11-37). CLI parsing itself is
external (clap); we embed only the resulting record. `port` is a `u16` and
`interval_ms` a `u64`; both are carried as `Nat` since none of the modelled
code can overflow them.
-/

structure Args where
  server : Bool
  group : String
  port : Nat
  interval_ms : Nat
  iface : Option String
  message : String

/-! ## IPv6 address parsing

`main` (main.rs lines 294-295) calls `Ipv6Addr::from_str` on `args.group`.
The definitions below are a faithful embedding of the recursive-descent
parser in Rust `core::net::parser` that backs `Ipv6Addr::from_str`:
`read_number` (with radix, max-digit and overflow checks), `read_separator`,
`read_ipv4_addr`, `read_groups` and `read_ipv6_addr`, with full-input
consumption required at the top level. An address is represented as its
list of eight 16-bit groups (each a `Nat` bounded by the parser).
-/

/-- Value of a hexadecimal digit character, Rust `char::to_digit(16)`. -/
def hexDigitVal (c : Char) : Option Nat :=
  if '0' ≤ c ∧ c ≤ '9' then some (c.toNat - '0'.toNat)
  else if 'a' ≤ c ∧ c ≤ 'f' then some (c.toNat - 'a'.toNat + 10)
  else if 'A' ≤ c ∧ c ≤ 'F' then some (c.toNat - 'A'.toNat + 10)
  else none

/-- Value of a decimal digit character, Rust `char::to_digit(10)`. -/
def decDigitVal (c : Char) : Option Nat :=
  if '0' ≤ c ∧ c ≤ '9' then some (c.toNat - '0'.toNat) else none

/-- Whether a digit count exceeds an optional maximum (Rust
`digit_count > max_digits` inside `read_number`). -/
def exceedsMax (maxDigits : Option Nat) (count : Nat) : Bool :=
  match maxDigits with
  | some m => decide (m < count)
  | none => false

/-- Whether the input starts with the character `0` (Rust
`p.peek_char() == Some('0')` in `read_number`). -/
def leadingZero : List Char → Bool
  | '0' :: _ => true
  | _ => false

/-- Digit-accumulation loop of Rust `Parser::read_number`: consume digits of
the given radix, failing on overflow past `maxVal` (the `checked_mul`/
`checked_add` of the concrete integer type) or on exceeding `maxDigits`.
Returns the value, the digit count and the unconsumed input. -/
def readDigits (digitVal : Char → Option Nat) (radix maxVal : Nat)
    (maxDigits : Option Nat) : List Char → Nat → Nat → Option (Nat × Nat × List Char)
  | [], acc, count => some (acc, count, [])
  | c :: rest, acc, count =>
    match digitVal c with
    | none => some (acc, count, c :: rest)
    | some d =>
      if acc * radix + d > maxVal then none
      else if exceedsMax maxDigits (count + 1) then none
      else readDigits digitVal radix maxVal maxDigits rest (acc * radix + d) (count + 1)

/-- Rust `Parser::read_number`: at least one digit, optional digit-count
limit, overflow check against `maxVal`, and optional rejection of a
redundant leading zero. -/
def readNumber (digitVal : Char → Option Nat) (radix maxVal : Nat)
    (maxDigits : Option Nat) (allowLeadingZeros : Bool) (s : List Char) :
    Option (Nat × List Char) :=
  match readDigits digitVal radix maxVal maxDigits s 0 0 with
  | none => none
  | some (v, count, rest) =>
    if count = 0 then none
    else if allowLeadingZeros = false ∧ leadingZero s = true ∧ 1 < count then none
    else some (v, rest)

/-- Rust `Parser::read_separator`: require the separator before every item
except the first, then run the inner parser; failure consumes nothing. -/
def readSeparator {α : Type} (sep : Char) (index : Nat)
    (inner : List Char → Option (α × List Char)) (s : List Char) :
    Option (α × List Char) :=
  if index = 0 then inner s
  else
    match s with
    | c :: rest => if c = sep then inner rest else none
    | [] => none

/-- One dotted-decimal octet of an embedded IPv4 address: radix 10, at most
3 digits, value at most 255 (`u8` checked arithmetic), no leading zero. -/
def readOctet (index : Nat) (s : List Char) : Option (Nat × List Char) :=
  readSeparator '.' index (readNumber decDigitVal 10 255 (some 3) false) s

/-- Rust `Parser::read_ipv4_addr`: four dot-separated octets. -/
def readIPv4 (s : List Char) : Option ((Nat × Nat × Nat × Nat) × List Char) :=
  match readOctet 0 s with
  | none => none
  | some (a, s1) =>
    match readOctet 1 s1 with
    | none => none
    | some (b, s2) =>
      match readOctet 2 s2 with
      | none => none
      | some (c, s3) =>
        match readOctet 3 s3 with
        | none => none
        | some (d, s4) => some ((a, b, c, d), s4)

/-- Rust `read_groups` inside `read_ipv6_addr`: fill up to `count` more
16-bit groups starting at absolute group index `index`. When at least two
slots remain, a trailing embedded IPv4 address is tried first and, if
present, contributes the final two groups. Returns the groups read, whether
an embedded IPv4 address was used, and the unconsumed input. -/
def readGroups : Nat → Nat → List Char → List Nat × Bool × List Char
  | _, 0, s => ([], false, s)
  | index, count + 1, s =>
    let v4 : Option (Nat × Nat × List Char) :=
      if 1 ≤ count then
        match readSeparator ':' index readIPv4 s with
        | some ((a, b, c, d), rest) => some (a * 256 + b, c * 256 + d, rest)
        | none => none
      else none
    match v4 with
    | some (g1, g2, rest) => ([g1, g2], true, rest)
    | none =>
      match readSeparator ':' index (readNumber hexDigitVal 16 65535 (some 4) true) s with
      | some (g, rest) =>
        let tail := readGroups (index + 1) count rest
        (g :: tail.1, tail.2.1, tail.2.2)
      | none => ([], false, s)

/-- Rust `Parser::read_ipv6_addr`: read the head groups; a full set of eight
succeeds outright. Otherwise an embedded IPv4 address may not appear before
`::`, a literal `::` must follow, and the remaining groups fill the end of
the address with zeros in between. -/
def readIPv6 (s : List Char) : Option (List Nat × List Char) :=
  let head := readGroups 0 8 s
  if head.1.length = 8 then some (head.1, head.2.2)
  else if head.2.1 = true then none
  else
    match head.2.2 with
    | ':' :: ':' :: rest2 =>
      let tail := readGroups 0 (8 - (head.1.length + 1)) rest2
      some (head.1 ++ List.replicate (8 - head.1.length - tail.1.length) 0 ++ tail.1,
            tail.2.2)
    | _ => none

/-- Rust `Ipv6Addr::from_str`: the parsed address, requiring the whole
input to be consumed. -/
def ipv6FromStr (s : String) : Option (List Nat) :=
  match readIPv6 s.data with
  | some (gs, []) => some gs
  | _ => none

/-- Embedding of main.rs lines 294-295: `Ipv6Addr::from_str(&args.group)`
with an `invalid IPv6 address` context naming the offending string. There
is no recovery step: the result of the single direct parse is final. -/
def parseGroup (s : String) : Except String (List Nat) :=
  match ipv6FromStr s with
  | some g => Except.ok g
  | none => Except.error s

/-! ## Interface resolution

Embedding of `if_name_to_index` (main.rs lines 39-71) and `parse_iface`
(lines 73-87). The platform name-to-index facility (`libc::if_nametoindex`)
is external; it is modelled as a function `osIndex : String → Nat` returning
`0` for unknown names, exactly the convention of the C API. `CString::new`
fails on interior NUL bytes, which `if_name_to_index` turns into `None`
via `.ok()?`.
-/

/-- Whether a string contains an interior NUL character, the failure case of
`CString::new` in `if_name_to_index`. -/
def hasNul (s : String) : Bool :=
  s.data.any (fun c => c = Char.ofNat 0)

/-- Embedding of `if_name_to_index` (main.rs lines 39-71): `None` when the
`CString` conversion fails or the platform facility returns zero. -/
def if_name_to_index (osIndex : String → Nat) (name : String) : Option Nat :=
  if hasNul name = true then none
  else if osIndex name = 0 then none
  else some (osIndex name)

/-- Error raised by `parse_iface`, the `bail!` at main.rs line 83, which
names the offending interface string. -/
inductive IfaceError where
  | interfaceNotFound (name : String)
deriving DecidableEq

/-- Rust `u32::from_str`: optional leading `+`, then one or more decimal
digits accumulated with overflow checks against `u32::MAX`. -/
def parseU32Digits : List Char → Nat → Option Nat
  | [], acc => some acc
  | c :: rest, acc =>
    match decDigitVal c with
    | none => none
    | some d =>
      if acc * 10 + d > 4294967295 then none
      else parseU32Digits rest (acc * 10 + d)

/-- Model of `s.parse::<u32>()` at main.rs line 76. -/
def parseU32 (s : String) : Option Nat :=
  match s.data with
  | [] => none
  | c :: rest =>
    if c = '+' then
      match rest with
      | [] => none
      | _ => parseU32Digits rest 0
    else parseU32Digits (c :: rest) 0

/-- Embedding of `parse_iface` (main.rs lines 73-87): absent input means
index 0; a numeric string is taken literally; otherwise the platform
facility decides, with zero or failure reported as `interfaceNotFound`. -/
def parse_iface (osIndex : String → Nat) (iface : Option String) :
    Except IfaceError Nat :=
  match iface with
  | none => Except.ok 0
  | some s =>
    match parseU32 s with
    | some i => Except.ok i
    | none =>
      match if_name_to_index osIndex s with
      | some idx => Except.ok idx
      | none => Except.error (IfaceError.interfaceNotFound s)

/-! ## Client statistics

Embedding of the `ClientStats`/`ServerStat` structures (main.rs lines
280-288) and the mutex-guarded updates performed by the receiver thread
(lines 207-231) and the send loop (lines 241-253). The peer address type is
a parameter `A`; the `HashMap<IpAddr, ServerStat>` is modelled as an
association list of reply counts.
-/

structure ClientStats (A : Type) where
  total_sent : Nat
  total_replies : Nat
  per_server : List (A × Nat)
deriving DecidableEq

/-- The stats value the client starts with (main.rs lines 197-201). -/
def initialStats (A : Type) : ClientStats A :=
  ⟨0, 0, []⟩

/-- Sum of the per-peer reply counters, `sum(perPeer.values())`. -/
def sumPeers (A : Type) (l : List (A × Nat)) : Nat :=
  (l.map Prod.snd).sum

/-- Embedding of `st.per_server.entry(key).or_insert_with(|| ServerStat {
replies: 0 }); entry.replies += 1` (main.rs lines 216-217): bump the
counter of `a`, inserting it with count 1 when absent. -/
def bumpPeer (A : Type) [DecidableEq A] : List (A × Nat) → A → List (A × Nat)
  | [], a => [(a, 1)]
  | (b, n) :: rest, a =>
    if a = b then (b, n + 1) :: rest else (b, n) :: bumpPeer A rest a

/-- One successful receipt in the receiver thread (main.rs lines 211-218):
`total_replies` and the per-peer counter keyed by the source address are
incremented together under the mutex. -/
def recvUpdate (A : Type) [DecidableEq A] (st : ClientStats A) (src : A) :
    ClientStats A :=
  { st with
    total_replies := st.total_replies + 1
    per_server := bumpPeer A st.per_server src }

/-- The receiver thread applied to a whole sequence of received source
addresses. -/
def runReceiver (A : Type) [DecidableEq A] (st : ClientStats A) (srcs : List A) :
    ClientStats A :=
  srcs.foldl (recvUpdate A) st

/-- The invariant claimed for the stats aggregator:
`totalReceived == sum(perPeer.values())`. -/
def statsInvariant (A : Type) (st : ClientStats A) : Prop :=
  st.total_replies = sumPeers A st.per_server

/-! ## Client send loop

Embedding of the send loop of `run_client` (main.rs lines 234-277). The
outcome of each `send_to` call and whether `Instant::now() >= next_print`
holds are environment inputs; each iteration produces the probe payload and
target it sent, the optional stats report it printed, and the duration it
slept. Percentages, computed in `f64` in Rust, are modelled as exact
rationals: the claims under check concern which formula is evaluated, not
floating-point rounding.
-/

/-- Result of one `send_sock.send_to` call (main.rs line 243). -/
inductive SendOutcome where
  | ok (bytesSent : Nat)
  | err
deriving DecidableEq

/-- Stats update performed for one send attempt (main.rs lines 243-253):
a successful send increments `total_sent` under the mutex; a failed send
only logs and leaves the stats untouched. -/
def sendStep (A : Type) (st : ClientStats A) (o : SendOutcome) : ClientStats A :=
  match o with
  | SendOutcome.ok _ => { st with total_sent := st.total_sent + 1 }
  | SendOutcome.err => st

/-- Count of successful outcomes in a list of send attempts. -/
def countOk : List SendOutcome → Nat
  | [] => 0
  | SendOutcome.ok _ :: rest => countOk rest + 1
  | SendOutcome.err :: rest => countOk rest

/-- The snapshot printed by the reporter (main.rs lines 256-273): the
printed total (note: the clamped value `total_sent.max(1)` is what line
262 prints), the reply total, the overall reply percentage and the
per-server percentages. -/
structure Report (A : Type) where
  printedTotalSent : Nat
  totalReplies : Nat
  replyPct : ℚ
  perServer : List (A × Nat × ℚ)
deriving DecidableEq

/-- Embedding of the reporting block (main.rs lines 256-273):
`total_sent = st.total_sent.max(1)`, `pct = total_replies * 100 /
total_sent`, and for each peer `p = replies * 100 / total_sent` with the
same clamped divisor. -/
def mkReport (A : Type) (st : ClientStats A) : Report A :=
  ⟨Nat.max st.total_sent 1,
   st.total_replies,
   (st.total_replies : ℚ) * 100 / (Nat.max st.total_sent 1 : ℚ),
   st.per_server.map (fun p => (p.1, p.2, (p.2 : ℚ) * 100 / (Nat.max st.total_sent 1 : ℚ)))⟩

/-- Observable output of one iteration of the send loop. -/
structure IterOut (A : Type) where
  payload : List Nat
  targetAddr : List Nat
  targetPort : Nat
  report : Option (Report A)
  sleepMs : Nat
deriving DecidableEq

/-- One iteration of the send loop (main.rs lines 241-277): send
`msg_bytes` to `[group]:port`, update `total_sent` according to the send
outcome, print a report when the print deadline has passed, then sleep
`interval`, the duration computed once at line 236 as
`Duration::from_millis(args.interval_ms.max(1))`. -/
def clientIteration (A : Type) [DecidableEq A] (args : Args) (mcast : List Nat)
    (st : ClientStats A) (outcome : SendOutcome) (printDue : Bool) :
    ClientStats A × IterOut A :=
  let st1 := sendStep A st outcome
  (st1,
   ⟨utf8Bytes args.message,
    mcast,
    args.port,
    if printDue then some (mkReport A st1) else none,
    Nat.max args.interval_ms 1⟩)

/-- The first `n` iterations of the send loop, starting from the initial
stats, with the send outcomes and print deadlines supplied by the
environment. Returns the final stats and the outputs in order. -/
def clientTrace (A : Type) [DecidableEq A] (args : Args) (mcast : List Nat)
    (outcomes : Nat → SendOutcome) (due : Nat → Bool) :
    Nat → ClientStats A × List (IterOut A)
  | 0 => (initialStats A, [])
  | n + 1 =>
    let prev := clientTrace A args mcast outcomes due n
    let step := clientIteration A args mcast prev.1 (outcomes n) (due n)
    (step.1, prev.2 ++ [step.2])

/-- Modelled from the spec: the per-peer breakdown formula the spec states
for the reporter, `peerReplies / totalSent * 100`, with the unclamped
divisor (to be compared with the formula `mkReport` actually computes). -/
def specPerPeerPct (peerReplies totalSent : Nat) : ℚ :=
  (peerReplies : ℚ) / (totalSent : ℚ) * 100

/-! ## Server loop

Embedding of `run_server` (main.rs lines 136-163). Each loop iteration
receives a datagram (or a receive error, which is logged and skipped) and
then, inline in the same loop, sends the configured reply message back to
the source address of the datagram with `sock.send_to(reply_bytes, &src)`.
-/

/-- One receive event of the server loop: a datagram with its payload and
source address, or a `recv_from` error. -/
inductive RecvEvent (A : Type) where
  | ok (data : List Nat) (src : A)
  | err
deriving DecidableEq

/-- Source addresses of the successfully received datagrams, in order. -/
def okSources (A : Type) : List (RecvEvent A) → List A
  | [] => []
  | RecvEvent.ok _ src :: rest => src :: okSources A rest
  | RecvEvent.err :: rest => okSources A rest

/-- The reply sends attempted by the server loop (main.rs lines 143-163)
over a sequence of receive events: a receive error only logs and
continues; every received datagram causes one `send_to` of the reply bytes
to the datagram's source address. Each element is (payload, destination). -/
def serverReplies (A : Type) (message : String) :
    List (RecvEvent A) → List (List Nat × A)
  | [] => []
  | RecvEvent.ok _ src :: rest => (utf8Bytes message, src) :: serverReplies A message rest
  | RecvEvent.err :: rest => serverReplies A message rest

/-- Actions of the server thread in execution order: completion of the
receive of packet `idx`, and completion of the reply send for packet
`idx`. -/
inductive ServerAction (A : Type) where
  | recvPacket (idx : Nat) (src : A)
  | sendReply (idx : Nat) (dest : A)
deriving DecidableEq

/-- Execution-order trace of the single-threaded server loop (main.rs
lines 143-163) on a run in which packet `index`, `index + 1`, ... arrive
from the given source addresses: the loop receives a packet, then sends
its reply inline before looping back to receive the next packet. -/
def serverTraceFrom (A : Type) (index : Nat) : List A → List (ServerAction A)
  | [] => []
  | src :: rest =>
    ServerAction.recvPacket index src :: ServerAction.sendReply index src ::
      serverTraceFrom A (index + 1) rest

/-- Trace of the server loop starting at packet 0. -/
def serverTrace (A : Type) (srcs : List A) : List (ServerAction A) :=
  serverTraceFrom A 0 srcs

/-! ## Socket allocation in client mode

Embedding of the socket setup of `run_client` (main.rs lines 172-184).
Socket creation and binding are OS capabilities; the model gives each new
socket a fresh file descriptor and resolves a bind to port 0 to a fresh
ephemeral port (the OS hands out a port not already in use, modelled as a
strictly increasing allocator). `make_send_socket` (lines 112-134) binds
`[::]:0`; the separate receive socket (lines 173-184) also binds `[::]:0`.
-/

structure SocketState where
  nextFd : Nat
  nextEphemeralPort : Nat
deriving DecidableEq

structure BoundSocket where
  fd : Nat
  localPort : Nat
deriving DecidableEq

/-- Create a UDP socket and bind it to `[::]:port`; port 0 requests an
ephemeral port from the OS allocator. -/
def bindUnspecified (st : SocketState) (port : Nat) : BoundSocket × SocketState :=
  if port = 0 then
    (⟨st.nextFd, st.nextEphemeralPort⟩, ⟨st.nextFd + 1, st.nextEphemeralPort + 1⟩)
  else
    (⟨st.nextFd, port⟩, ⟨st.nextFd + 1, st.nextEphemeralPort⟩)

/-- The two sockets `run_client` creates (main.rs lines 172-184): first
`make_send_socket` binds `[::]:0` (line 121-122), then the separate receive
socket binds `[::]:0` (line 181). Returns (send socket, receive socket,
final allocator state). -/
def clientSockets (st : SocketState) : BoundSocket × BoundSocket × SocketState :=
  let send := bindUnspecified st 0
  let recv := bindUnspecified send.2 0
  (send.1, recv.1, recv.2)

/-! ## Concrete fixtures for witness evaluations -/

/-- Concrete argument record: client mode, `port = 12345`,
`interval_ms = 1000`, `message = "ping"`, and a parseable group string. -/
def args0 : Args :=
  ⟨false, "ff12::1", 12345, 1000, none, "ping"⟩

/-- Like `args0` but with `interval_ms = 0`. -/
def argsZero : Args :=
  ⟨false, "ff12::1", 12345, 0, none, "ping"⟩

/-- The eight 16-bit groups of the address `ff12::1`. -/
def mcast0 : List Nat :=
  [0xff12, 0, 0, 0, 0, 0, 0, 1]

/-! ## Helper lemmas -/

/-- The server's reply list is exactly the source list of the successfully
received datagrams, each paired with the fixed reply payload. -/
theorem serverReplies_eq (A : Type) (message : String)
    (events : List (RecvEvent A)) :
    serverReplies A message events
      = (okSources A events).map (fun src => (utf8Bytes message, src)) := by
  induction events with
  | nil => rfl
  | cons e rest ih => cases e <;> simp [serverReplies, okSources, ih]

/-- Bumping a peer counter adds exactly one to the sum of all counters. -/
theorem sumPeers_bumpPeer (A : Type) [DecidableEq A] (l : List (A × Nat)) (a : A) :
    sumPeers A (bumpPeer A l a) = sumPeers A l + 1 := by
  induction l with
  | nil => rfl
  | cons p rest ih =>
    obtain ⟨b, n⟩ := p
    by_cases h : a = b
    · simp [bumpPeer, h, sumPeers]
      omega
    · simp [bumpPeer, h, sumPeers] at ih ⊢
      omega

/-- Receiver-thread bookkeeping over a whole sequence of receipts: the
reply total and the per-peer sum both grow by the number of receipts and
the sent counter is untouched. -/
theorem runReceiver_counts (A : Type) [DecidableEq A] (srcs : List A)
    (st : ClientStats A) :
    (runReceiver A st srcs).total_replies = st.total_replies + srcs.length ∧
    sumPeers A (runReceiver A st srcs).per_server
      = sumPeers A st.per_server + srcs.length ∧
    (runReceiver A st srcs).total_sent = st.total_sent := by
  induction srcs generalizing st with
  | nil => simp [runReceiver]
  | cons a rest ih =>
    have h := ih (recvUpdate A st a)
    simp only [runReceiver, List.foldl] at h ⊢
    refine ⟨?_, ?_, ?_⟩
    · rw [h.1]
      simp only [recvUpdate, List.length_cons]
      omega
    · rw [h.2.1]
      simp only [recvUpdate, List.length_cons]
      rw [sumPeers_bumpPeer]
      omega
    · rw [h.2.2]
      simp [recvUpdate]

/-- Position of the receive and reply actions for packet `i` in the server
trace starting at packet `index`. -/
theorem serverTraceFrom_get (A : Type) (srcs : List A) (index i : Nat) (s : A)
    (h : srcs.get? i = some s) :
    (serverTraceFrom A index srcs).get? (2 * i)
      = some (ServerAction.recvPacket (index + i) s) ∧
    (serverTraceFrom A index srcs).get? (2 * i + 1)
      = some (ServerAction.sendReply (index + i) s) := by
  induction srcs generalizing index i with
  | nil => simp [List.get?] at h
  | cons a rest ih =>
    cases i with
    | zero =>
      simp only [List.get?] at h
      cases h
      simp [serverTraceFrom, List.get?]
    | succ k =>
      have h2 : rest.get? k = some s := by simpa [List.get?] using h
      have h3 := ih (index + 1) k h2
      constructor
      · have e : 2 * (k + 1) = 2 * k + 1 + 1 := by omega
        rw [e]
        show (serverTraceFrom A (index + 1) rest).get? (2 * k) = _
        rw [h3.1]
        have e2 : index + 1 + k = index + (k + 1) := by omega
        rw [e2]
      · have e : 2 * (k + 1) + 1 = 2 * k + 1 + 1 + 1 := by omega
        rw [e]
        show (serverTraceFrom A (index + 1) rest).get? (2 * k + 1) = _
        rw [h3.2]
        have e2 : index + 1 + k = index + (k + 1) := by omega
        rw [e2]

/-! ## Claims -/

/-- C1: the claim says the client waits for replies on the same underlying
socket, bound to the same local address and port, as the one probes are
sent from. The code contradicts this and its own comments (main.rs lines
174, 186-191): `run_client` binds a second, separate socket to a fresh
ephemeral port for receiving, so for every allocator state the two sockets
differ in both descriptor and local port — replies addressed to the probe
source port arrive at a socket nobody reads. -/
theorem client_binds_two_distinct_sockets (st : SocketState) :
    (clientSockets st).1.fd ≠ (clientSockets st).2.1.fd ∧
    (clientSockets st).1.localPort ≠ (clientSockets st).2.1.localPort := by
  refine ⟨?_, ?_⟩ <;> simp [clientSockets, bindUnspecified]

/-- C2 (amended): `parseMulticastAddress` attempts only the direct IPv6
parse; when that fails the `InvalidAddress` error naming the input is
reported immediately, with no segment-splitting recovery re-parse. -/
theorem parse_group_direct_only (s : String) :
    (ipv6FromStr s = none → parseGroup s = Except.error s) ∧
    (∀ g, ipv6FromStr s = some g → parseGroup s = Except.ok g) := by
  constructor
  · intro h; simp [parseGroup, h]
  · intro g h; simp [parseGroup, h]

/-- Witness for C2: a non-address string is rejected with the error naming
it, and a valid address is parsed directly. -/
theorem parse_group_direct_only_witness :
    parseGroup "zz" = Except.error "zz" ∧ parseGroup "ff12::1" = Except.ok mcast0 :=
  ⟨(parse_group_direct_only "zz").1 (by decide),
   (parse_group_direct_only "ff12::1").2 mcast0 (by decide)⟩

/-- Counterexample for C2 as stated: `ff120000:0:0:0:0:0:1` has one
8-hex-digit segment and otherwise-valid segments, and its 4-character-chunk
split `ff12:0000:0:0:0:0:0:1` parses — yet the program reports
`InvalidAddress` because no recovery heuristic exists (main.rs lines
294-295 parse once and fail). -/
theorem parse_group_no_recovery_cex :
    parseGroup "ff120000:0:0:0:0:0:1" = Except.error "ff120000:0:0:0:0:0:1" ∧
    ipv6FromStr "ff12:0000:0:0:0:0:0:1" = some mcast0 := by
  constructor
  · rfl
  · decide

/-- C3: over every sequence of receive events, the server loop attempts
exactly one unicast reply per successfully received datagram, carrying the
configured reply payload and addressed to the exact source of the datagram
it answers; in particular no reply targets the multicast group address
unless a datagram claimed the group as its source. -/
theorem run_server_replies_to_sources (A : Type) (message : String)
    (events : List (RecvEvent A)) (group : A) :
    (serverReplies A message events).length = (okSources A events).length ∧
    (serverReplies A message events).map Prod.snd = okSources A events ∧
    (∀ r ∈ serverReplies A message events, r.1 = utf8Bytes message) ∧
    ((∀ s ∈ okSources A events, s ≠ group) →
      ∀ r ∈ serverReplies A message events, r.2 ≠ group) := by
  refine ⟨?_, ?_, ?_, ?_⟩
  · rw [serverReplies_eq]; simp
  · rw [serverReplies_eq]; simp
  · intro r hr
    rw [serverReplies_eq] at hr
    rcases List.mem_map.mp hr with ⟨src, hsrc, hEq⟩
    rw [← hEq]
  · intro hall r hr
    rw [serverReplies_eq] at hr
    rcases List.mem_map.mp hr with ⟨src, hsrc, hEq⟩
    rw [← hEq]
    exact hall src hsrc

/-- Witness for C3: three receive events, one of them an error, produce
exactly two replies addressed to the two sources, and a concrete reply is
not addressed to the group address 9. -/
theorem run_server_replies_to_sources_witness :
    (serverReplies Nat "pong"
        [RecvEvent.ok [1] 5, RecvEvent.err, RecvEvent.ok [] 6]).map Prod.snd
      = [5, 6] ∧
    (utf8Bytes "pong", (5 : Nat)).2 ≠ 9 := by
  have h := run_server_replies_to_sources Nat "pong"
    [RecvEvent.ok [1] 5, RecvEvent.err, RecvEvent.ok [] 6] 9
  exact ⟨h.2.1, h.2.2.2 (by decide) (utf8Bytes "pong", 5) (by decide)⟩

/-- C4 (amended): every probe payload built by the client sender is the
fixed configured message converted to bytes once before the loop (main.rs
line 238); successive probes carry byte-identical payloads and no sequence
number. -/
theorem probe_payload_constant (A : Type) [DecidableEq A] (args : Args)
    (mcast : List Nat) (outcomes : Nat → SendOutcome) (due : Nat → Bool) (n : Nat) :
    ∀ out ∈ (clientTrace A args mcast outcomes due n).2,
      out.payload = utf8Bytes args.message ∧ out.targetAddr = mcast ∧
      out.targetPort = args.port := by
  induction n with
  | zero => intro out h; simp [clientTrace] at h
  | succ m ih =>
    intro out h
    simp only [clientTrace, List.mem_append, List.mem_singleton] at h
    rcases h with h | h
    · exact ih out h
    · subst h
      exact ⟨rfl, rfl, rfl⟩

/-- Witness for C4: the first iteration's output of a concrete client run
carries the bytes of "ping". -/
theorem probe_payload_constant_witness :
    (⟨utf8Bytes "ping", mcast0, 12345, none, 1000⟩ : IterOut Nat).payload
      = utf8Bytes "ping" :=
  (probe_payload_constant Nat args0 mcast0 (fun _ => SendOutcome.ok 4)
    (fun _ => false) 2 ⟨utf8Bytes "ping", mcast0, 12345, none, 1000⟩ (by decide)).1

/-- Counterexample for C4 as stated: in a concrete client run the payloads
of the first two successive probes are both exactly the bytes of "ping" —
byte-identical payloads cannot carry strictly increasing sequence
numbers. -/
theorem probe_no_sequence_number_cex :
    ((clientTrace Nat args0 mcast0 (fun _ => SendOutcome.ok 4) (fun _ => false) 2).2).map
        IterOut.payload
      = [utf8Bytes "ping", utf8Bytes "ping"] := by
  rfl

/-- C5: for every send attempt, a successful send increments `total_sent`
by exactly one and changes nothing else, a failed send leaves the stats
unchanged, and over any sequence of attempts `total_sent` grows by exactly
the number of successes. -/
theorem total_sent_increment_on_success (A : Type) (st : ClientStats A) (b : Nat)
    (outcomes : List SendOutcome) :
    (sendStep A st (SendOutcome.ok b)).total_sent = st.total_sent + 1 ∧
    (sendStep A st (SendOutcome.ok b)).total_replies = st.total_replies ∧
    (sendStep A st (SendOutcome.ok b)).per_server = st.per_server ∧
    sendStep A st SendOutcome.err = st ∧
    (outcomes.foldl (sendStep A) st).total_sent = st.total_sent + countOk outcomes := by
  refine ⟨rfl, rfl, rfl, rfl, ?_⟩
  induction outcomes generalizing st with
  | nil => simp [countOk]
  | cons o rest ih =>
    cases o with
    | ok b2 =>
      simp only [List.foldl, countOk]
      rw [ih]
      simp [sendStep]
      omega
    | err =>
      simp only [List.foldl, countOk]
      rw [ih]
      rfl

/-- C6: the aggregator invariant `totalReceived == sum(perPeer.values())`
holds initially, is preserved by every receiver update, and after any
sequence of receive events both `totalReceived` and the per-peer sum equal
the number of events. -/
theorem stats_total_matches_per_peer_sum (A : Type) [DecidableEq A]
    (st : ClientStats A) (src : A) (srcs : List A) :
    statsInvariant A (initialStats A) ∧
    (statsInvariant A st → statsInvariant A (recvUpdate A st src)) ∧
    (runReceiver A (initialStats A) srcs).total_replies = srcs.length ∧
    sumPeers A (runReceiver A (initialStats A) srcs).per_server = srcs.length := by
  refine ⟨rfl, ?_, ?_, ?_⟩
  · intro h
    simp only [statsInvariant, recvUpdate, sumPeers_bumpPeer] at h ⊢
    omega
  · rw [(runReceiver_counts A srcs (initialStats A)).1]
    simp [initialStats]
  · rw [(runReceiver_counts A srcs (initialStats A)).2.1]
    simp [initialStats, sumPeers]

/-- Witness for C6: the invariant survives a concrete update, and 100
simulated receive events leave both counters at 100. -/
theorem stats_total_matches_per_peer_sum_witness :
    statsInvariant Nat (recvUpdate Nat ⟨0, 2, [(3, 2)]⟩ 3) ∧
    (runReceiver Nat (initialStats Nat) (List.replicate 100 7)).total_replies = 100 ∧
    sumPeers Nat (runReceiver Nat (initialStats Nat) (List.replicate 100 7)).per_server
      = 100 := by
  have h := stats_total_matches_per_peer_sum Nat ⟨0, 2, [(3, 2)]⟩ 3 (List.replicate 100 7)
  refine ⟨h.2.1 rfl, ?_, ?_⟩
  · rw [h.2.2.1]; rfl
  · rw [h.2.2.2]; rfl

/-- C7 (amended): the reporter computes
`successRate = totalReceived * 100 / max(totalSent, 1)` and the per-peer
breakdown as `peerReplies * 100 / max(totalSent, 1)` — both with the same
clamped divisor — so with `totalSent >= 1` the divisor is `totalSent`
itself, and with `totalSent == 0` both rates degenerate to the numerator
times 100. -/
theorem report_rates_use_clamped_divisor (A : Type) (st : ClientStats A) :
    (mkReport A st).replyPct
      = (st.total_replies : ℚ) * 100 / (Nat.max st.total_sent 1 : ℚ) ∧
    (mkReport A st).perServer
      = st.per_server.map
          (fun p => (p.1, p.2, (p.2 : ℚ) * 100 / (Nat.max st.total_sent 1 : ℚ))) ∧
    (1 ≤ st.total_sent →
      (mkReport A st).replyPct = (st.total_replies : ℚ) * 100 / (st.total_sent : ℚ)) ∧
    (st.total_sent = 0 →
      (mkReport A st).replyPct = (st.total_replies : ℚ) * 100 ∧
      (mkReport A st).perServer
        = st.per_server.map (fun p => (p.1, p.2, (p.2 : ℚ) * 100))) := by
  refine ⟨rfl, rfl, ?_, ?_⟩
  · intro h
    have e : Nat.max st.total_sent 1 = st.total_sent := Nat.max_eq_left h
    simp [mkReport, e]
  · intro h
    have e : Nat.max st.total_sent 1 = 1 := by rw [h]; decide
    simp [mkReport, e]

/-- Witness for C7: with 5 sent and 3 received the rate is 60%, and with
0 sent and 4 received the clamped divisor yields 400%. -/
theorem report_rates_use_clamped_divisor_witness :
    (mkReport Nat ⟨5, 3, [(1, 2)]⟩).replyPct = 60 ∧
    (mkReport Nat ⟨0, 4, [(1, 4)]⟩).replyPct = 400 := by
  constructor
  · rw [(report_rates_use_clamped_divisor Nat ⟨5, 3, [(1, 2)]⟩).2.2.1 (by norm_num)]
    norm_num
  · rw [((report_rates_use_clamped_divisor Nat ⟨0, 4, [(1, 4)]⟩).2.2.2 rfl).1]
    norm_num

/-- Counterexample for C7 as stated: with `totalSent == 0` and a peer that
sent 5 replies, the code's per-peer figure is `5 * 100 / max(0, 1) = 500`,
while the claimed formula `peerReplies / totalSent * 100` divides by zero
(in the rational model it yields 0; in the program's `f64` it would be
infinite) — in either reading it differs from 500. -/
theorem report_per_peer_divisor_cex :
    (mkReport Nat ⟨0, 5, [(1, 5)]⟩).perServer = [(1, 5, (500 : ℚ))] ∧
    specPerPeerPct 5 0 = 0 ∧ ((500 : ℚ) ≠ 0) := by
  refine ⟨?_, ?_, by norm_num⟩
  · simp [mkReport]
    norm_num
  · simp [specPerPeerPct]

/-- C8: interface resolution — absent input yields index 0; a string that
parses as a `u32` yields that literal index for every platform lookup
function; any other string is resolved through the platform facility, a
nonzero result is returned as-is, and a zero result or a `CString` failure
yields `InterfaceNotFound` naming the offending string. -/
theorem resolve_interface_cases (osIndex : String → Nat) (s : String) (i : Nat) :
    parse_iface osIndex none = Except.ok 0 ∧
    (parseU32 s = some i → parse_iface osIndex (some s) = Except.ok i) ∧
    (parseU32 s = none → hasNul s = false → osIndex s ≠ 0 →
      parse_iface osIndex (some s) = Except.ok (osIndex s)) ∧
    (parseU32 s = none → (hasNul s = true ∨ osIndex s = 0) →
      parse_iface osIndex (some s) = Except.error (IfaceError.interfaceNotFound s)) := by
  refine ⟨rfl, ?_, ?_, ?_⟩
  · intro h
    simp [parse_iface, h]
  · intro h hn hz
    simp [parse_iface, h, if_name_to_index, hn, hz]
  · intro h hor
    rcases hor with hn | hz
    · simp [parse_iface, h, if_name_to_index, hn]
    · rcases hc : hasNul s with hf | ht
      · simp [parse_iface, h, if_name_to_index, hc, hz]
      · simp [parse_iface, h, if_name_to_index, hc]

/-- Witness for C8: the numeric string "7" resolves to 7 even when the
platform knows no interfaces, an unknown name fails naming itself, and a
known name resolves to its platform index. -/
theorem resolve_interface_cases_witness :
    parse_iface (fun _ => 0) (some "7") = Except.ok 7 ∧
    parse_iface (fun _ => 0) (some "eth0")
      = Except.error (IfaceError.interfaceNotFound "eth0") ∧
    parse_iface (fun _ => 3) (some "eth0") = Except.ok 3 :=
  ⟨(resolve_interface_cases (fun _ => 0) "7" 7).2.1 (by decide),
   (resolve_interface_cases (fun _ => 0) "eth0" 0).2.2.2 (by decide) (Or.inr rfl),
   (resolve_interface_cases (fun _ => 3) "eth0" 0).2.2.1 (by decide) (by decide) (by decide)⟩

/-- C9 (amended): reply dispatch is inline in the single-threaded server
loop — in the execution trace the receive of packet `i` is the action at
position `2i` and the completed reply send for packet `i` is the very next
action at position `2i + 1`, so the reply to packet `i` always completes
before packet `i + 1` is received at position `2(i + 1)`. -/
theorem server_reply_inline (A : Type) (srcs : List A) (i : Nat) (s : A)
    (h : srcs.get? i = some s) :
    (serverTrace A srcs).get? (2 * i) = some (ServerAction.recvPacket i s) ∧
    (serverTrace A srcs).get? (2 * i + 1) = some (ServerAction.sendReply i s) ∧
    2 * i + 1 < 2 * (i + 1) := by
  have h3 := serverTraceFrom_get A srcs 0 i s h
  refine ⟨?_, ?_, by omega⟩
  · rw [serverTrace, h3.1]
    simp
  · rw [serverTrace, h3.2]
    simp

/-- Witness for C9: in a two-packet run the reply to packet 0 is the
action at position 1 and the receive of packet 1 only happens at
position 2. -/
theorem server_reply_inline_witness :
    (serverTrace Nat [5, 6]).get? 1 = some (ServerAction.sendReply 0 5) ∧
    (serverTrace Nat [5, 6]).get? 2 = some (ServerAction.recvPacket 1 6) := by
  have h0 := server_reply_inline Nat [5, 6] 0 5 (by decide)
  have h1 := server_reply_inline Nat [5, 6] 1 6 (by decide)
  exact ⟨h0.2.1, h1.1⟩

/-- Counterexample for C9 as stated: the full trace of a concrete
two-packet run is receive 0, reply 0, receive 1, reply 1 — the reply to
packet 0 completes strictly before packet 1 is received, so the server
cannot receive packet `N + 1` before the reply to packet `N` completes;
the reply is not dispatched as an independent unit of work. -/
theorem server_inline_reply_cex :
    serverTrace Nat [5, 6]
      = [ServerAction.recvPacket 0 5, ServerAction.sendReply 0 5,
         ServerAction.recvPacket 1 6, ServerAction.sendReply 1 6] := by
  rfl

/-- C10: the sender's sleep period is `max(interval_ms, 1)` milliseconds:
any configured `interval_ms >= 1` is used exactly, `interval_ms == 0` is
silently clamped to 1, and the period is never zero. -/
theorem send_period_clamped (A : Type) [DecidableEq A] (args : Args)
    (mcast : List Nat) (st : ClientStats A) (outcome : SendOutcome) (due : Bool) :
    (clientIteration A args mcast st outcome due).2.sleepMs
      = Nat.max args.interval_ms 1 ∧
    (1 ≤ args.interval_ms →
      (clientIteration A args mcast st outcome due).2.sleepMs = args.interval_ms) ∧
    (args.interval_ms = 0 →
      (clientIteration A args mcast st outcome due).2.sleepMs = 1) ∧
    1 ≤ (clientIteration A args mcast st outcome due).2.sleepMs := by
  refine ⟨rfl, ?_, ?_, ?_⟩
  · intro h
    show Nat.max args.interval_ms 1 = args.interval_ms
    exact Nat.max_eq_left h
  · intro h
    show Nat.max args.interval_ms 1 = 1
    rw [h]
    decide
  · show 1 ≤ Nat.max args.interval_ms 1
    exact Nat.le_max_right args.interval_ms 1

/-- Witness for C10: a 1000 ms interval sleeps 1000 ms, and a 0 ms interval
sleeps 1 ms. -/
theorem send_period_clamped_witness :
    (clientIteration Nat args0 mcast0 (initialStats Nat)
        (SendOutcome.ok 4) false).2.sleepMs = 1000 ∧
    (clientIteration Nat argsZero mcast0 (initialStats Nat)
        (SendOutcome.ok 4) false).2.sleepMs = 1 :=
  ⟨(send_period_clamped Nat args0 mcast0 (initialStats Nat)
      (SendOutcome.ok 4) false).2.1 (by decide),
   (send_period_clamped Nat argsZero mcast0 (initialStats Nat)
      (SendOutcome.ok 4) false).2.2.1 rfl⟩

end MulticastPing
